import Mathlib

/-!
Shallow embedding of the solana_trading core (positions.py, safety.py,
memory.py, tool.py) over exact rationals.  Python floats are modelled as
`ℚ`; Python's `round(x, n)` (decimal rounding, ties to even) is modelled
exactly by `pyRound`.
-/

namespace Trpnano

/-- Round a rational to the nearest integer, ties to even
(the rounding mode of Python's builtin `round`). -/
def pyRoundInt (x : ℚ) : ℤ :=
  let f := ⌊x⌋
  let r := x - f
  if r < 1/2 then f
  else if 1/2 < r then f + 1
  else if 2 ∣ f then f else f + 1

/-- Python's `round(x, n)`: decimal rounding to `n` places, ties to even. -/
def pyRound (x : ℚ) (n : ℕ) : ℚ :=
  (pyRoundInt (x * 10 ^ n) : ℚ) / 10 ^ n

/-- Python's `int(x)` on a float: truncation toward zero. -/
def truncQ (x : ℚ) : ℤ :=
  if 0 ≤ x then ⌊x⌋ else ⌈x⌉

/-- DexScreener token snapshot (service.py, `TokenInfo`).  Only the fields
the trading core reads are kept. -/
structure TokenInfo where
  address : String
  symbol : String
  name : String
  price_usd : ℚ
  volume_24h : ℚ
  liquidity_usd : ℚ
  price_change_5m : ℚ
  price_change_1h : ℚ
  price_change_24h : ℚ
  buy_count_5m : ℕ
  sell_count_5m : ℕ
  deriving DecidableEq

/-- Buy-pressure block of `_compute_trend_score` (5m buys vs sells):
the `if total_txns > 0: ...` update of the running score. -/
def buyPressureStep (token : TokenInfo) (score : ℤ) : ℤ :=
  if 0 < token.buy_count_5m + token.sell_count_5m then
    let buy_ratio : ℚ :=
      (token.buy_count_5m : ℚ) / ((token.buy_count_5m + token.sell_count_5m : ℕ) : ℚ)
    if buy_ratio ≥ 7/10 then score + 20
    else if buy_ratio ≥ 6/10 then score + 10
    else if buy_ratio < 4/10 then score - 15
    else score
  else score

/-- 5-minute price-momentum block of `_compute_trend_score`. -/
def change5mStep (token : TokenInfo) (score : ℤ) : ℤ :=
  if token.price_change_5m > 5 then score + 10
  else if token.price_change_5m < -5 then score - 10
  else score

/-- 1-hour price-momentum block of `_compute_trend_score`. -/
def change1hStep (token : TokenInfo) (score : ℤ) : ℤ :=
  if token.price_change_1h > 10 then score + 10
  else if token.price_change_1h < -10 then score - 10
  else score

/-- Liquidity-depth block of `_compute_trend_score`. -/
def liquidityStep (token : TokenInfo) (score : ℤ) : ℤ :=
  if token.liquidity_usd > 200000 then score + 10
  else if token.liquidity_usd > 100000 then score + 5
  else score

/-- Volume-relative-to-liquidity (velocity) block of
`_compute_trend_score`, applied only when liquidity is positive. -/
def velocityStep (token : TokenInfo) (score : ℤ) : ℤ :=
  if token.liquidity_usd > 0 then
    let velocity := token.volume_24h / token.liquidity_usd
    if velocity > 5 then score + 5
    else if velocity < 1/2 then score - 5
    else score
  else score

/-- safety.py `_compute_trend_score`: score a token 0-100 on trend
strength; baseline 50, then the five sequential score updates of the
source in order, clamped at the end by `max(0, min(100, score))`. -/
def _compute_trend_score (token : TokenInfo) : ℤ :=
  max 0 (min 100
    (velocityStep token (liquidityStep token (change1hStep token
      (change5mStep token (buyPressureStep token 50))))))

/-- Spec-shaped buy-pressure adjustment (undefined ratio contributes 0). -/
def buyPressureAdj (token : TokenInfo) : ℤ :=
  if 0 < token.buy_count_5m + token.sell_count_5m then
    let buy_ratio : ℚ :=
      (token.buy_count_5m : ℚ) / ((token.buy_count_5m + token.sell_count_5m : ℕ) : ℚ)
    if buy_ratio ≥ 7/10 then 20
    else if buy_ratio ≥ 6/10 then 10
    else if buy_ratio < 4/10 then -15
    else 0
  else 0

/-- Spec-shaped 5-minute price-change adjustment. -/
def change5mAdj (token : TokenInfo) : ℤ :=
  if token.price_change_5m > 5 then 10
  else if token.price_change_5m < -5 then -10
  else 0

/-- Spec-shaped 1-hour price-change adjustment. -/
def change1hAdj (token : TokenInfo) : ℤ :=
  if token.price_change_1h > 10 then 10
  else if token.price_change_1h < -10 then -10
  else 0

/-- Spec-shaped liquidity-tier adjustment. -/
def liquidityAdj (token : TokenInfo) : ℤ :=
  if token.liquidity_usd > 200000 then 10
  else if token.liquidity_usd > 100000 then 5
  else 0

/-- Spec-shaped volume/liquidity velocity adjustment (only when
liquidity is positive). -/
def velocityAdj (token : TokenInfo) : ℤ :=
  if token.liquidity_usd > 0 then
    if token.volume_24h / token.liquidity_usd > 5 then 5
    else if token.volume_24h / token.liquidity_usd < 1/2 then -5
    else 0
  else 0

/-- A score-100 example token: buy ratio 0.8, +6% in 5m, +15% in 1h,
liquidity 250k, 24h volume 1.5M (velocity 6). -/
def hotToken : TokenInfo :=
  { address := "HOT", symbol := "HOT", name := "Hot"
    price_usd := 1, volume_24h := 1500000, liquidity_usd := 250000
    price_change_5m := 6, price_change_1h := 15, price_change_24h := 0
    buy_count_5m := 4, sell_count_5m := 1 }

theorem buyPressureStep_eq (token : TokenInfo) (s : ℤ) :
    buyPressureStep token s = s + buyPressureAdj token := by
  simp only [buyPressureStep, buyPressureAdj]
  split_ifs <;> ring

theorem change5mStep_eq (token : TokenInfo) (s : ℤ) :
    change5mStep token s = s + change5mAdj token := by
  simp only [change5mStep, change5mAdj]
  split_ifs <;> ring

theorem change1hStep_eq (token : TokenInfo) (s : ℤ) :
    change1hStep token s = s + change1hAdj token := by
  simp only [change1hStep, change1hAdj]
  split_ifs <;> ring

theorem liquidityStep_eq (token : TokenInfo) (s : ℤ) :
    liquidityStep token s = s + liquidityAdj token := by
  simp only [liquidityStep, liquidityAdj]
  split_ifs <;> ring

theorem velocityStep_eq (token : TokenInfo) (s : ℤ) :
    velocityStep token s = s + velocityAdj token := by
  simp only [velocityStep, velocityAdj]
  split_ifs <;> ring

theorem score_decomposition (token : TokenInfo) :
    _compute_trend_score token =
      max 0 (min 100 (50 + buyPressureAdj token + change5mAdj token +
        change1hAdj token + liquidityAdj token + velocityAdj token)) := by
  rw [_compute_trend_score, buyPressureStep_eq, change5mStep_eq,
    change1hStep_eq, liquidityStep_eq, velocityStep_eq]

/-- C3: the trend score is always an integer in [0,100]; it is baseline 50
plus independent additive adjustments, clamped to [0,100]; and the example
token (buy ratio 0.8, +6% 5m, +15% 1h, $250k liquidity, velocity 6) scores
100 after clamping 50+20+10+10+10+5 = 105. -/
theorem score_in_range_and_additive :
    (∀ token : TokenInfo,
        0 ≤ _compute_trend_score token ∧ _compute_trend_score token ≤ 100) ∧
    (∀ token : TokenInfo,
        _compute_trend_score token =
          max 0 (min 100 (50 + buyPressureAdj token + change5mAdj token +
            change1hAdj token + liquidityAdj token + velocityAdj token))) ∧
    (50 + buyPressureAdj hotToken + change5mAdj hotToken + change1hAdj hotToken +
        liquidityAdj hotToken + velocityAdj hotToken = 105 ∧
      _compute_trend_score hotToken = 100) := by
  refine ⟨fun token => ?_, score_decomposition,
    by norm_num [buyPressureAdj, change5mAdj, change1hAdj, liquidityAdj,
      velocityAdj, hotToken],
    by norm_num [_compute_trend_score, buyPressureStep, change5mStep,
      change1hStep, liquidityStep, velocityStep, hotToken]⟩
  rw [score_decomposition]
  constructor
  · exact le_max_left 0 _
  · exact max_le (by norm_num) (min_le_left 100 _)

/-- positions.py `Position`: an open or closed trading position.
`status` is one of "open", "closed", "stopped_out", "took_profit". -/
structure Position where
  token_address : String
  symbol : String
  entry_price_usd : ℚ
  amount_tokens : ℚ
  amount_sol_in : ℚ
  entry_time : ℚ
  stop_loss_price : ℚ
  take_profit_price : ℚ
  status : String := "open"
  deriving DecidableEq

/-- A positions.py trade-log entry (the dicts appended to `_trade_log`
by `open_position` and `close_position`). -/
inductive LogEntry where
  | buy (token symbol : String) (price sol_amount time : ℚ)
  | sell (token symbol : String)
      (entry_price exit_price sol_in sol_out pnl_sol pnl_pct : ℚ)
      (reason : String) (time : ℚ)
  deriving DecidableEq

/-- The `token` field of a trade-log entry. -/
def LogEntry.token : LogEntry → String
  | .buy t _ _ _ _ => t
  | .sell t _ _ _ _ _ _ _ _ _ => t

/-- The `time` field of a trade-log entry. -/
def LogEntry.time : LogEntry → ℚ
  | .buy _ _ _ _ tm => tm
  | .sell _ _ _ _ _ _ _ _ _ tm => tm

/-- The `pnl_sol` field of a trade-log entry (sell entries only). -/
def LogEntry.pnlSol : LogEntry → ℚ
  | .buy _ _ _ _ _ => 0
  | .sell _ _ _ _ _ _ pnl _ _ _ => pnl

/-- positions.py `_stats`: aggregate counters. -/
structure Stats where
  total_pnl_sol : ℚ
  wins : ℕ
  losses : ℕ
  deriving DecidableEq

/-- In-memory state of a `PositionManager` (persistence is a
whole-document rewrite of exactly this data, so it is elided). -/
structure PMState where
  positions : List Position
  trade_log : List LogEntry
  stats : Stats
  deriving DecidableEq

/-- The state of a freshly constructed `PositionManager` with no store. -/
def PMState.init : PMState :=
  { positions := [], trade_log := [], stats := ⟨0, 0, 0⟩ }

/-- The `Position` value constructed by positions.py `open_position`:
`stop_loss_price = entry*(1 - pct/100)`,
`take_profit_price = entry*(1 + pct/100)`.  `now` stands for
`time.time()`. -/
def openedPosition (token_address symbol : String)
    (entry_price_usd amount_tokens amount_sol_in stop_loss_pct
      take_profit_pct now : ℚ) : Position :=
  { token_address := token_address
    symbol := symbol
    entry_price_usd := entry_price_usd
    amount_tokens := amount_tokens
    amount_sol_in := amount_sol_in
    entry_time := now
    stop_loss_price := entry_price_usd * (1 - stop_loss_pct / 100)
    take_profit_price := entry_price_usd * (1 + take_profit_pct / 100)
    status := "open" }

/-- positions.py `open_position`: appends the newly built position and a
buy log entry, and returns the position. -/
def open_position (s : PMState) (token_address symbol : String)
    (entry_price_usd amount_tokens amount_sol_in stop_loss_pct
      take_profit_pct now : ℚ) : Position × PMState :=
  (openedPosition token_address symbol entry_price_usd amount_tokens
      amount_sol_in stop_loss_pct take_profit_pct now,
    { s with
        positions := s.positions ++
          [openedPosition token_address symbol entry_price_usd amount_tokens
            amount_sol_in stop_loss_pct take_profit_pct now]
        trade_log := s.trade_log ++
          [.buy token_address symbol entry_price_usd amount_sol_in now] })

/-- The in-place status mutation of `close_position`'s loop: find the
first position matching the token with status "open", set its status to
`reason`; returns the mutated position and the mutated list. -/
def closeFirst (token_address reason : String) :
    List Position → Option (Position × List Position)
  | [] => none
  | p :: rest =>
    if p.token_address = token_address ∧ p.status = "open" then
      let p2 := { p with status := reason }
      some (p2, p2 :: rest)
    else
      match closeFirst token_address reason rest with
      | none => none
      | some (q, rest2) => some (q, p :: rest2)

/-- positions.py `close_position`: closes the first open position for the
token, updates stats incrementally (`total_pnl_sol` re-rounded to 6
decimals, win iff `pnl_sol ≥ 0`), appends a sell log entry. -/
def close_position (s : PMState) (token_address : String)
    (exit_price sol_out : ℚ) (reason : String) (now : ℚ) :
    Option Position × PMState :=
  match closeFirst token_address reason s.positions with
  | none => (none, s)
  | some (pos, positions2) =>
    let pnl_sol := sol_out - pos.amount_sol_in
    let pnl_pct :=
      if pos.entry_price_usd ≠ 0 then
        (exit_price - pos.entry_price_usd) / pos.entry_price_usd * 100
      else 0
    (some pos,
      { positions := positions2
        trade_log := s.trade_log ++
          [.sell token_address pos.symbol pos.entry_price_usd exit_price
            pos.amount_sol_in sol_out (pyRound pnl_sol 6) (pyRound pnl_pct 2)
            reason now]
        stats :=
          { total_pnl_sol := pyRound (s.stats.total_pnl_sol + pnl_sol) 6
            wins := if pnl_sol ≥ 0 then s.stats.wins + 1 else s.stats.wins
            losses := if pnl_sol ≥ 0 then s.stats.losses else s.stats.losses + 1 } })

/-- positions.py `get_open_positions`. -/
def get_open_positions (s : PMState) : List Position :=
  s.positions.filter (fun p => p.status = "open")

/-- positions.py `get_total_sol_invested`. -/
def get_total_sol_invested (s : PMState) : ℚ :=
  ((get_open_positions s).map (fun p => p.amount_sol_in)).sum

/-- positions.py `get_positions_for_token`. -/
def get_positions_for_token (s : PMState) (token_address : String) :
    List Position :=
  s.positions.filter
    (fun p => p.token_address = token_address ∧ p.status = "open")

/-- positions.py `get_last_trade_time`: most recent log entry for the
token (newest-first scan). -/
def get_last_trade_time (s : PMState) (token_address : String) : Option ℚ :=
  (s.trade_log.reverse.find? (fun e => e.token == token_address)).map
    LogEntry.time

/-- The stats dict returned by positions.py `get_stats`, with the derived
`total_trades` and `win_rate_pct` (rounded to 1 decimal) fields. -/
structure StatsView where
  total_pnl_sol : ℚ
  wins : ℕ
  losses : ℕ
  total_trades : ℕ
  win_rate_pct : ℚ
  deriving DecidableEq

/-- positions.py `get_stats`. -/
def get_stats (s : PMState) : StatsView :=
  let total := s.stats.wins + s.stats.losses
  let win_rate : ℚ :=
    if 0 < total then (s.stats.wins : ℚ) / (total : ℚ) * 100 else 0
  { total_pnl_sol := s.stats.total_pnl_sol
    wins := s.stats.wins
    losses := s.stats.losses
    total_trades := total
    win_rate_pct := pyRound win_rate 1 }

/-- positions.py `suggest_trade_size`: scale trade size by win rate. -/
def suggest_trade_size (s : PMState) (base_sol sol_balance : ℚ) : ℚ :=
  let stats := get_stats s
  if stats.total_trades < 5 then base_sol
  else
    let win_rate := stats.win_rate_pct
    let multiplier : ℚ :=
      if win_rate ≥ 70 then 3/2
      else if win_rate ≥ 55 then 6/5
      else if win_rate < 40 then 1/2
      else 1
    let suggested :=
      min (min (base_sol * multiplier) (base_sol * 2)) (sol_balance * (1/10))
    pyRound (max suggested (1/100)) 4

/-- The per-position body of `check_stop_loss_take_profit`'s loop:
skip when the price is unknown, stop-loss checked first, else
take-profit. -/
def triggerFor (current_prices : String → Option ℚ) (pos : Position) :
    Option (Position × String) :=
  match current_prices pos.token_address with
  | none => none
  | some price =>
    if price ≤ pos.stop_loss_price then some (pos, "stopped_out")
    else if price ≥ pos.take_profit_price then some (pos, "took_profit")
    else none

/-- positions.py `check_stop_loss_take_profit`: checks all open positions
against current prices, returning (position, reason) pairs.  The state is
returned as well to make the (absent) state effect explicit. -/
def check_stop_loss_take_profit (s : PMState)
    (current_prices : String → Option ℚ) :
    List (Position × String) × PMState :=
  ((get_open_positions s).filterMap (triggerFor current_prices), s)

/-- The limit mutation of tool.py `_set_limits` on the found position:
each bound is recomputed from the entry price only when the
corresponding percentage argument is positive. -/
def updateLimits (stop_loss_pct take_profit_pct : ℚ) (p : Position) :
    Position :=
  let p1 :=
    if stop_loss_pct > 0 then
      { p with stop_loss_price := p.entry_price_usd * (1 - stop_loss_pct / 100) }
    else p
  if take_profit_pct > 0 then
    { p1 with take_profit_price := p1.entry_price_usd * (1 + take_profit_pct / 100) }
  else p1

/-- Apply `f` to the first open position for the token (the element
`get_positions_for_token(...)[0]`, mutated in place in the source). -/
def updateFirstOpen (token_address : String) (f : Position → Position) :
    List Position → List Position
  | [] => []
  | p :: rest =>
    if p.token_address = token_address ∧ p.status = "open" then f p :: rest
    else p :: updateFirstOpen token_address f rest

/-- tool.py `_set_limits`: recompute the stop-loss/take-profit bounds of
the first open position for the token (no-op when there is none). -/
def set_limits (s : PMState) (token_address : String)
    (stop_loss_pct take_profit_pct : ℚ) : PMState :=
  { s with
      positions :=
        updateFirstOpen token_address
          (updateLimits stop_loss_pct take_profit_pct) s.positions }

theorem triggerFor_eq_some (cp : String → Option ℚ) (pos q : Position)
    (reason : String) :
    triggerFor cp pos = some (q, reason) ↔
      q = pos ∧ ∃ price, cp pos.token_address = some price ∧
        ((reason = "stopped_out" ∧ price ≤ pos.stop_loss_price) ∨
          (reason = "took_profit" ∧ pos.stop_loss_price < price ∧
            pos.take_profit_price ≤ price)) := by
  unfold triggerFor
  cases h : cp pos.token_address with
  | none =>
    constructor
    · intro he; exact absurd he (by simp)
    · rintro ⟨_, price, hp, _⟩
      exact absurd hp (by simp)
  | some price =>
    dsimp only
    split_ifs with h1 h2
    · simp only [Option.some.injEq, Prod.mk.injEq]
      constructor
      · rintro ⟨rfl, rfl⟩
        exact ⟨rfl, price, rfl, Or.inl ⟨rfl, h1⟩⟩
      · rintro ⟨rfl, price', hp', hcase⟩
        subst hp'
        rcases hcase with ⟨hr, _⟩ | ⟨_, hlt, _⟩
        · exact ⟨rfl, hr.symm⟩
        · exact absurd hlt (by linarith)
    · simp only [Option.some.injEq, Prod.mk.injEq]
      constructor
      · rintro ⟨rfl, rfl⟩
        exact ⟨rfl, price, rfl, Or.inr ⟨rfl, lt_of_not_le h1, h2⟩⟩
      · rintro ⟨rfl, price', hp', hcase⟩
        subst hp'
        rcases hcase with ⟨_, hle⟩ | ⟨hr, _, _⟩
        · exact absurd hle h1
        · exact ⟨rfl, hr.symm⟩
    · constructor
      · intro he; exact absurd he (by simp)
      · rintro ⟨rfl, price', hp', hcase⟩
        rw [Option.some.injEq] at hp'
        subst hp'
        rcases hcase with ⟨_, hle⟩ | ⟨_, _, hge⟩
        · exact absurd hle h1
        · exact absurd hge h2

/-- C1: a (position, reason) pair is reported by
`check_stop_loss_take_profit` exactly when the position is in the
manager, is open, and its current price is known, with reason
"stopped_out" exactly when `price ≤ stop_loss_price` and otherwise
"took_profit" exactly when `price ≥ take_profit_price` (stop-loss first,
mutually exclusive); and a position just opened with positive entry
price and positive stop-loss/take-profit percentages is not reported at
a price exactly equal to its entry price. -/
theorem checkTriggers_characterization :
    (∀ (s : PMState) (cp : String → Option ℚ) (pos : Position)
        (reason : String),
      (pos, reason) ∈ (check_stop_loss_take_profit s cp).1 ↔
        pos ∈ s.positions ∧ pos.status = "open" ∧
          ∃ price, cp pos.token_address = some price ∧
            ((reason = "stopped_out" ∧ price ≤ pos.stop_loss_price) ∨
              (reason = "took_profit" ∧ pos.stop_loss_price < price ∧
                pos.take_profit_price ≤ price))) ∧
    (∀ (s : PMState) (token_address symbol : String)
        (entry amt sol slpct tppct now : ℚ) (cp : String → Option ℚ),
      0 < entry → 0 < slpct → 0 < tppct →
      cp token_address = some entry →
      ∀ reason : String,
        ((open_position s token_address symbol entry amt sol slpct tppct now).1,
            reason) ∉
          (check_stop_loss_take_profit
            (open_position s token_address symbol entry amt sol slpct tppct now).2
            cp).1) := by
  have main : ∀ (s : PMState) (cp : String → Option ℚ) (pos : Position)
      (reason : String),
      (pos, reason) ∈ (check_stop_loss_take_profit s cp).1 ↔
        pos ∈ s.positions ∧ pos.status = "open" ∧
          ∃ price, cp pos.token_address = some price ∧
            ((reason = "stopped_out" ∧ price ≤ pos.stop_loss_price) ∨
              (reason = "took_profit" ∧ pos.stop_loss_price < price ∧
                pos.take_profit_price ≤ price)) := by
    intro s cp pos reason
    simp only [check_stop_loss_take_profit, get_open_positions,
      List.mem_filterMap, List.mem_filter, decide_eq_true_eq]
    constructor
    · rintro ⟨a, ⟨ha, hopen⟩, htrig⟩
      rcases (triggerFor_eq_some cp a pos reason).mp htrig with ⟨rfl, hrest⟩
      exact ⟨ha, hopen, hrest⟩
    · rintro ⟨ha, hopen, hrest⟩
      exact ⟨pos, ⟨ha, hopen⟩,
        (triggerFor_eq_some cp pos pos reason).mpr ⟨rfl, hrest⟩⟩
  refine ⟨main, ?_⟩
  intro s token_address symbol entry amt sol slpct tppct now cp
    hentry hsl htp hcp reason hmem
  rcases (main _ cp _ reason).mp hmem with ⟨_, _, price, hprice, hcase⟩
  simp only [open_position, openedPosition] at hprice hcase
  rw [hcp, Option.some.injEq] at hprice
  subst hprice
  rcases hcase with ⟨_, hle⟩ | ⟨_, _, hge⟩
  · nlinarith
  · nlinarith

theorem checkTriggers_witness :
    (0:ℚ) < 1 ∧
      ∀ reason : String,
        ((open_position PMState.init "tok" "TOK" 1 100 2 10 50 0).1, reason) ∉
          (check_stop_loss_take_profit
            (open_position PMState.init "tok" "TOK" 1 100 2 10 50 0).2
            (fun a => if a = "tok" then some 1 else none)).1 :=
  ⟨by norm_num,
    checkTriggers_characterization.2 PMState.init "tok" "TOK" 1 100 2 10 50 0
      (fun a => if a = "tok" then some 1 else none)
      (by norm_num) (by norm_num) (by norm_num) (by simp)⟩

/-- C9: `check_stop_loss_take_profit` is a pure query — it returns the
manager state completely unchanged: no position, no trade-log entry and
no stats counter is modified. -/
theorem checkTriggers_pure :
    ∀ (s : PMState) (cp : String → Option ℚ),
      (check_stop_loss_take_profit s cp).2.positions = s.positions ∧
      (check_stop_loss_take_profit s cp).2.trade_log = s.trade_log ∧
      (check_stop_loss_take_profit s cp).2.stats = s.stats ∧
      (check_stop_loss_take_profit s cp).2 = s :=
  fun _ _ => ⟨rfl, rfl, rfl, rfl⟩

/-- The position invariant of the spec:
`stop_loss_price < entry_price < take_profit_price`. -/
def limitsInv (p : Position) : Prop :=
  p.stop_loss_price < p.entry_price_usd ∧
    p.entry_price_usd < p.take_profit_price

theorem updateLimits_entry (sl tp : ℚ) (p : Position) :
    (updateLimits sl tp p).entry_price_usd = p.entry_price_usd := by
  unfold updateLimits
  split_ifs <;> rfl

theorem updateLimits_preserves (sl tp : ℚ) (p : Position)
    (he : 0 < p.entry_price_usd) (h : limitsInv p) :
    limitsInv (updateLimits sl tp p) := by
  obtain ⟨h1, h2⟩ := h
  unfold updateLimits limitsInv
  split_ifs with hsl htp htp <;> dsimp only <;> constructor <;> nlinarith

theorem foldUpdateLimits_preserves (ops : List (ℚ × ℚ)) (p : Position)
    (he : 0 < p.entry_price_usd) (h : limitsInv p) :
    limitsInv (ops.foldl (fun q o => updateLimits o.1 o.2 q) p) := by
  induction ops generalizing p with
  | nil => exact h
  | cons o rest ih =>
    exact ih _ (by rw [updateLimits_entry]; exact he)
      (updateLimits_preserves o.1 o.2 p he h)

/-- C7 (amended): provided the entry price is positive, a position opened
with positive stop-loss and take-profit percentages satisfies
`stop_loss_price < entry_price < take_profit_price`, and the invariant is
preserved by any sequence of `_set_limits`-style bound updates (which
recompute a bound only for a positive percentage argument). -/
theorem limits_invariant_of_open (token_address symbol : String)
    (entry amt sol slpct tppct now : ℚ)
    (he : 0 < entry) (hsl : 0 < slpct) (htp : 0 < tppct) :
    limitsInv
      (openedPosition token_address symbol entry amt sol slpct tppct now) ∧
    (∀ ops : List (ℚ × ℚ),
      limitsInv (ops.foldl (fun q o => updateLimits o.1 o.2 q)
        (openedPosition token_address symbol entry amt sol slpct tppct now))) ∧
    (∀ (st : PMState) (tok : String) (sl tp : ℚ),
      (set_limits st tok sl tp).positions =
        updateFirstOpen tok (updateLimits sl tp) st.positions) := by
  have hbase : limitsInv
      (openedPosition token_address symbol entry amt sol slpct tppct now) := by
    unfold limitsInv openedPosition
    constructor <;> dsimp only <;> nlinarith
  exact ⟨hbase,
    fun ops => foldUpdateLimits_preserves ops _ he hbase,
    fun _ _ _ _ => rfl⟩

theorem limits_invariant_witness :
    (0:ℚ) < 1 ∧ (0:ℚ) < 10 ∧ (0:ℚ) < 50 ∧
      limitsInv (openedPosition "tok" "TOK" 1 100 2 10 50 0) :=
  ⟨by norm_num, by norm_num, by norm_num,
    (limits_invariant_of_open "tok" "TOK" 1 100 2 10 50 0
      (by norm_num) (by norm_num) (by norm_num)).1⟩

/-- C7 counterexample: with entry price 0 and positive percentages 10 and
50, the opened position has `stop_loss_price = entry_price =
take_profit_price = 0`, so the claimed invariant fails. -/
theorem limits_invariant_counterexample :
    (0:ℚ) < 10 ∧ (0:ℚ) < 50 ∧
      ¬ limitsInv (openedPosition "tok" "TOK" 0 100 2 10 50 0) := by
  refine ⟨by norm_num, by norm_num, ?_⟩
  unfold limitsInv openedPosition
  norm_num

/-- An example manager state with 7 wins and 3 losses (win rate exactly
70%), used in the `suggest_trade_size` examples. -/
def state73 : PMState :=
  { positions := [], trade_log := [], stats := ⟨0, 7, 3⟩ }

/-- The win-rate multiplier tiers of `suggest_trade_size`, as the spec
states them. -/
def specMultiplier (win_rate : ℚ) : ℚ :=
  if win_rate ≥ 70 then 3/2
  else if win_rate ≥ 55 then 6/5
  else if win_rate < 40 then 1/2
  else 1

theorem suggest_trade_size_eq (s : PMState) (base_sol sol_balance : ℚ)
    (h : ¬ (get_stats s).total_trades < 5) :
    suggest_trade_size s base_sol sol_balance =
      pyRound (max (min (min (base_sol * specMultiplier (get_stats s).win_rate_pct)
        (base_sol * 2)) (sol_balance * (1/10))) (1/100)) 4 := by
  simp only [suggest_trade_size, specMultiplier]
  rw [if_neg h]

/-- C6: with fewer than 5 recorded trades `suggest_trade_size` returns the
base size unchanged; otherwise it is the tiered multiple of the base,
capped by `base*2` and a tenth of the balance, floored at 0.01 and rounded
to 4 decimals, with the 70%-win-rate boundary taking the 1.5 tier; a
manager with 7 wins and 3 losses (win rate exactly 70%) suggests
0.1 * 1.5 = 0.15 for base 0.1 and balance 100. -/
theorem suggest_trade_size_spec :
    (∀ (s : PMState) (base_sol sol_balance : ℚ),
      (get_stats s).total_trades < 5 →
        suggest_trade_size s base_sol sol_balance = base_sol) ∧
    (∀ (s : PMState) (base_sol sol_balance : ℚ),
      5 ≤ (get_stats s).total_trades →
        suggest_trade_size s base_sol sol_balance =
          pyRound (max (min (min
            (base_sol * specMultiplier (get_stats s).win_rate_pct)
            (base_sol * 2)) (sol_balance * (1/10))) (1/100)) 4) ∧
    (∀ wr : ℚ, wr ≥ 70 → specMultiplier wr = 3/2) ∧
    ((get_stats state73).win_rate_pct = 70 ∧
      suggest_trade_size state73 (1/10) 100 = 3/20) := by
  refine ⟨?_, ?_, ?_, ?_, ?_⟩
  · intro s base_sol sol_balance h
    simp only [suggest_trade_size]
    rw [if_pos h]
  · intro s base_sol sol_balance h
    exact suggest_trade_size_eq s base_sol sol_balance (by omega)
  · intro wr h
    simp only [specMultiplier]
    rw [if_pos h]
  · norm_num [get_stats, state73, pyRound, pyRoundInt]
  · norm_num [suggest_trade_size, get_stats, state73, pyRound, pyRoundInt]

theorem suggest_trade_size_spec_witness :
    (get_stats PMState.init).total_trades < 5 ∧
      suggest_trade_size PMState.init 5 7 = 5 :=
  ⟨by norm_num [get_stats, PMState.init],
    suggest_trade_size_spec.1 PMState.init 5 7
      (by norm_num [get_stats, PMState.init])⟩

theorem pyRoundInt_ge_floor (x : ℚ) : ⌊x⌋ ≤ pyRoundInt x := by
  simp only [pyRoundInt]
  split_ifs <;> omega

theorem pyRound4_ge_centi (x : ℚ) (h : 1/100 ≤ x) : 1/100 ≤ pyRound x 4 := by
  unfold pyRound
  have h1 : (100:ℤ) ≤ ⌊x * 10 ^ 4⌋ := by
    rw [Int.le_floor]
    push_cast
    nlinarith
  have h2 : (100:ℤ) ≤ pyRoundInt (x * 10 ^ 4) :=
    le_trans h1 (pyRoundInt_ge_floor _)
  have h3 : (100:ℚ) ≤ (pyRoundInt (x * 10 ^ 4) : ℚ) := by exact_mod_cast h2
  rw [div_le_div_iff (by norm_num) (by norm_num : (0:ℚ) < 10 ^ 4)]
  linarith

/-- C10: once at least 5 trades are recorded, `suggest_trade_size` never
returns less than 0.01 — in particular when a tenth of the balance is
below 0.01 the floor wins and the suggestion exceeds 10% of the wallet
balance. -/
theorem suggest_trade_size_floor (s : PMState) (base_sol sol_balance : ℚ)
    (h : 5 ≤ (get_stats s).total_trades) :
    1/100 ≤ suggest_trade_size s base_sol sol_balance ∧
      (sol_balance * (1/10) < 1/100 →
        sol_balance * (1/10) < suggest_trade_size s base_sol sol_balance) := by
  rw [suggest_trade_size_eq s base_sol sol_balance (by omega)]
  have hmax : 1/100 ≤
      max (min (min (base_sol * specMultiplier (get_stats s).win_rate_pct)
        (base_sol * 2)) (sol_balance * (1/10))) (1/100) :=
    le_max_right _ _
  have hfloor := pyRound4_ge_centi _ hmax
  exact ⟨hfloor, fun hsmall => lt_of_lt_of_le hsmall hfloor⟩

theorem suggest_trade_size_floor_witness :
    5 ≤ (get_stats state73).total_trades ∧
      1/100 ≤ suggest_trade_size state73 (1/10) (1/20) :=
  ⟨by norm_num [get_stats, state73],
    (suggest_trade_size_floor state73 (1/10) (1/20)
      (by norm_num [get_stats, state73])).1⟩

/-- Number of closed (non-open) positions in a manager state. -/
def closedCount (s : PMState) : ℕ :=
  (s.positions.filter (fun p => p.status ≠ "open")).length

/-- Sum of the `pnl_sol` values recorded in the trade log (buy entries
contribute 0): the full recompute of `total_pnl_sol` from the history. -/
def loggedPnlSum (s : PMState) : ℚ :=
  (s.trade_log.map LogEntry.pnlSol).sum

/-- A `PositionManager` mutating operation: `open_position` or
`close_position` (with their arguments). -/
inductive PMOp where
  | openOp (token_address symbol : String)
      (entry amt sol slpct tppct now : ℚ)
  | closeOp (token_address : String) (exit_price sol_out : ℚ)
      (reason : String) (now : ℚ)

/-- Apply one operation to the manager state (return values dropped). -/
def applyOp (s : PMState) : PMOp → PMState
  | .openOp t sym e a sol sl tp now => (open_position s t sym e a sol sl tp now).2
  | .closeOp t ex so r now => (close_position s t ex so r now).2

/-- Run a sequence of open/close operations from the empty state. -/
def runOps (ops : List PMOp) : PMState :=
  ops.foldl applyOp PMState.init

/-- An exact multiple of 10⁻⁶ SOL (a quantity `round(·, 6)` maps to
itself).  The incremental `total_pnl_sol` accumulator is always of this
form, being the output of `round(·, 6)`. -/
def isMicroSol (x : ℚ) : Prop := ∃ k : ℤ, x = k / 10 ^ 6

/-- A close operation with a terminal reason: `close_position` stores the
caller-supplied reason string as the position status, so a close whose
reason is the reserved status "open" would leave the position open while
still counting a win or loss. -/
def PMOp.terminalReason : PMOp → Prop
  | .openOp _ _ _ _ _ _ _ _ => True
  | .closeOp _ _ _ r _ => r ≠ "open"

/-- Whether an operation is a `close_position` call. -/
def PMOp.isClose : PMOp → Bool
  | .openOp _ _ _ _ _ _ _ _ => false
  | .closeOp _ _ _ _ _ => true

/-- Number of close operations in a run. -/
def closeOpsCount (ops : List PMOp) : ℕ :=
  (ops.filter PMOp.isClose).length

theorem isMicroSol_zero : isMicroSol 0 := ⟨0, by norm_num⟩

/-- Shifting the argument by an integer shifts the banker's rounding by
that integer up to 1 (exactly 1 off only when a tie is broken toward a
different parity). -/
theorem pyRoundInt_int_add_bound (k : ℤ) (y : ℚ) :
    |pyRoundInt ((k : ℚ) + y) - (k + pyRoundInt y)| ≤ 1 := by
  have hfloor : ⌊(k : ℚ) + y⌋ = k + ⌊y⌋ := Int.floor_int_add k y
  have hr : (k : ℚ) + y - ((k + ⌊y⌋ : ℤ) : ℚ) = y - (⌊y⌋ : ℚ) := by
    push_cast
    ring
  simp only [pyRoundInt, hfloor, hr]
  rw [abs_le]
  split_ifs <;> omega

/-- Adding an exact multiple of 10⁻⁶ commutes with 6-decimal rounding up
to one unit in the sixth decimal place. -/
theorem pyRound_micro_add (k : ℤ) (y : ℚ) :
    |pyRound ((k : ℚ) / 10 ^ 6 + y) 6 - ((k : ℚ) / 10 ^ 6 + pyRound y 6)| ≤
      1 / 10 ^ 6 := by
  have harg : ((k : ℚ) / 10 ^ 6 + y) * 10 ^ 6 = (k : ℚ) + y * 10 ^ 6 := by
    field_simp
  have hb := pyRoundInt_int_add_bound k (y * 10 ^ 6)
  unfold pyRound
  rw [harg]
  have hcast : (pyRoundInt ((k : ℚ) + y * 10 ^ 6) : ℚ) / 10 ^ 6 -
      ((k : ℚ) / 10 ^ 6 + (pyRoundInt (y * 10 ^ 6) : ℚ) / 10 ^ 6) =
      ((pyRoundInt ((k : ℚ) + y * 10 ^ 6) -
        (k + pyRoundInt (y * 10 ^ 6)) : ℤ) : ℚ) / 10 ^ 6 := by
    push_cast
    ring
  rw [hcast, abs_div, abs_of_pos (by norm_num : (0:ℚ) < 10 ^ 6)]
  have hA : |((pyRoundInt ((k : ℚ) + y * 10 ^ 6) -
      (k + pyRoundInt (y * 10 ^ 6)) : ℤ) : ℚ)| ≤ 1 := by
    rw [← Int.cast_abs]
    exact_mod_cast hb
  gcongr

/-- The wins/losses-count invariant carried through the run. -/
def statsInv (s : PMState) : Prop :=
  s.stats.wins + s.stats.losses = closedCount s

theorem closeFirst_spec (token_address reason : String) :
    ∀ (l : List Position) (q : Position) (l2 : List Position),
      closeFirst token_address reason l = some (q, l2) →
      ∃ l₁ p l₃, l = l₁ ++ p :: l₃ ∧ p.status = "open" ∧
        q = { p with status := reason } ∧ l2 = l₁ ++ q :: l₃ := by
  intro l
  induction l with
  | nil =>
    intro q l2 h
    exact absurd h (by simp [closeFirst])
  | cons p rest ih =>
    intro q l2 h
    rw [closeFirst] at h
    split_ifs at h with hp
    · simp only [Option.some.injEq, Prod.mk.injEq] at h
      obtain ⟨hq, hl⟩ := h
      refine ⟨[], p, rest, by simp, hp.2, hq.symm, ?_⟩
      rw [← hl, ← hq]
      simp
    · revert h
      cases hm : closeFirst token_address reason rest with
      | none =>
        intro h
        exact absurd h (by simp)
      | some pr =>
        obtain ⟨q0, rest2⟩ := pr
        intro h
        simp only [Option.some.injEq, Prod.mk.injEq] at h
        obtain ⟨hq, hl⟩ := h
        obtain ⟨l₁, p0, l₃, hsplit, hopen, hqeq, hl2⟩ := ih q0 rest2 hm
        refine ⟨p :: l₁, p0, l₃, by rw [hsplit]; simp, hopen,
          by rw [← hq]; exact hqeq, ?_⟩
        rw [← hl, hl2, ← hq]
        simp

theorem statsInv_open (s : PMState) (t sym : String) (e a sol sl tp now : ℚ)
    (hs : statsInv s) :
    statsInv (open_position s t sym e a sol sl tp now).2 := by
  simpa [statsInv, open_position, closedCount, List.filter_append,
    openedPosition] using hs

theorem statsInv_close (s : PMState) (t : String) (ex so : ℚ)
    (r : String) (now : ℚ) (hr : r ≠ "open") (hs : statsInv s) :
    statsInv (close_position s t ex so r now).2 := by
  unfold close_position
  cases hm : closeFirst t r s.positions with
  | none => exact hs
  | some pr =>
    obtain ⟨q, l2⟩ := pr
    obtain ⟨l₁, p, l₃, hsplit, hopen, hq, hl2⟩ :=
      closeFirst_spec t r s.positions q l2 hm
    have hclosed :
        (l2.filter (fun x => x.status ≠ "open")).length =
          (s.positions.filter (fun x => x.status ≠ "open")).length + 1 := by
      have hqstat : q.status = r := by rw [hq]
      rw [hl2, hsplit]
      simp only [List.filter_append, List.length_append, List.filter_cons]
      have hpo : (decide ¬p.status = "open") = false := by simp [hopen]
      have hqo : (decide ¬q.status = "open") = true := by simp [hqstat, hr]
      rw [hpo, hqo]
      simp [Nat.add_comm, Nat.add_assoc, Nat.add_left_comm]
    show (if so - q.amount_sol_in ≥ 0 then s.stats.wins + 1 else s.stats.wins) +
        (if so - q.amount_sol_in ≥ 0 then s.stats.losses
          else s.stats.losses + 1) =
        closedCount ⟨l2, _, _⟩
    have h1c : s.stats.wins + s.stats.losses =
        (s.positions.filter (fun x => x.status ≠ "open")).length := hs
    show _ = (l2.filter (fun x => x.status ≠ "open")).length
    split_ifs <;> omega

theorem statsInv_run (ops : List PMOp) (s : PMState)
    (hterm : ∀ op ∈ ops, op.terminalReason) (hs : statsInv s) :
    statsInv (ops.foldl applyOp s) := by
  induction ops generalizing s with
  | nil => exact hs
  | cons op rest ih =>
    refine ih _ (fun o ho => hterm o (by simp [ho])) ?_
    have hop := hterm op (by simp)
    cases op with
    | openOp t sym e a sol sl tp now =>
      exact statsInv_open s t sym e a sol sl tp now hs
    | closeOp t ex so r now =>
      exact statsInv_close s t ex so r now hop hs

theorem close_position_state (s : PMState) (t : String) (ex so : ℚ)
    (r : String) (now : ℚ) (q : Position) (l2 : List Position)
    (h : closeFirst t r s.positions = some (q, l2)) :
    (close_position s t ex so r now).2 =
      ⟨l2,
        s.trade_log ++
          [.sell t q.symbol q.entry_price_usd ex q.amount_sol_in so
            (pyRound (so - q.amount_sol_in) 6)
            (pyRound (if q.entry_price_usd ≠ 0 then
              (ex - q.entry_price_usd) / q.entry_price_usd * 100 else 0) 2)
            r now],
        ⟨pyRound (s.stats.total_pnl_sol + (so - q.amount_sol_in)) 6,
          if so - q.amount_sol_in ≥ 0 then s.stats.wins + 1 else s.stats.wins,
          if so - q.amount_sol_in ≥ 0 then s.stats.losses
            else s.stats.losses + 1⟩⟩ := by
  unfold close_position
  rw [h]

theorem close_step_bound (s : PMState) (t : String) (ex so : ℚ)
    (r : String) (now : ℚ) (hmicro : isMicroSol s.stats.total_pnl_sol) :
    isMicroSol (close_position s t ex so r now).2.stats.total_pnl_sol ∧
    |((close_position s t ex so r now).2.stats.total_pnl_sol -
        loggedPnlSum (close_position s t ex so r now).2) -
      (s.stats.total_pnl_sol - loggedPnlSum s)| ≤ 1 / 10 ^ 6 := by
  cases hm : closeFirst t r s.positions with
  | none =>
    have hnone : (close_position s t ex so r now).2 = s := by
      unfold close_position
      rw [hm]
    rw [hnone]
    refine ⟨hmicro, ?_⟩
    simp
  | some pr =>
    obtain ⟨q, l2⟩ := pr
    rw [close_position_state s t ex so r now q l2 hm]
    constructor
    · exact ⟨pyRoundInt ((s.stats.total_pnl_sol +
        (so - q.amount_sol_in)) * 10 ^ 6), rfl⟩
    · obtain ⟨k, hk⟩ := hmicro
      have hlog : loggedPnlSum
          (⟨l2, s.trade_log ++
            [.sell t q.symbol q.entry_price_usd ex q.amount_sol_in so
              (pyRound (so - q.amount_sol_in) 6)
              (pyRound (if q.entry_price_usd ≠ 0 then
                (ex - q.entry_price_usd) / q.entry_price_usd * 100 else 0) 2)
              r now],
            ⟨pyRound (s.stats.total_pnl_sol + (so - q.amount_sol_in)) 6,
              if so - q.amount_sol_in ≥ 0 then s.stats.wins + 1
                else s.stats.wins,
              if so - q.amount_sol_in ≥ 0 then s.stats.losses
                else s.stats.losses + 1⟩⟩ : PMState) =
          loggedPnlSum s + pyRound (so - q.amount_sol_in) 6 := by
        simp [loggedPnlSum, LogEntry.pnlSol]
      rw [hlog, hk]
      have harg : (pyRound ((k : ℚ) / 10 ^ 6 + (so - q.amount_sol_in)) 6 -
          (loggedPnlSum s + pyRound (so - q.amount_sol_in) 6)) -
          ((k : ℚ) / 10 ^ 6 - loggedPnlSum s) =
          pyRound ((k : ℚ) / 10 ^ 6 + (so - q.amount_sol_in)) 6 -
          ((k : ℚ) / 10 ^ 6 + pyRound (so - q.amount_sol_in) 6) := by
        ring
      rw [harg]
      exact pyRound_micro_add k (so - q.amount_sol_in)

theorem pnlBound_run : ∀ (ops : List PMOp) (s : PMState),
    isMicroSol s.stats.total_pnl_sol →
    isMicroSol (ops.foldl applyOp s).stats.total_pnl_sol ∧
    |((ops.foldl applyOp s).stats.total_pnl_sol -
        loggedPnlSum (ops.foldl applyOp s)) -
      (s.stats.total_pnl_sol - loggedPnlSum s)| ≤
      (closeOpsCount ops : ℚ) / 10 ^ 6 := by
  intro ops
  induction ops with
  | nil =>
    intro s h
    refine ⟨h, ?_⟩
    simp [closeOpsCount]
  | cons op rest ih =>
    intro s h
    rw [List.foldl_cons]
    cases op with
    | openOp t sym e a sol sl tp now =>
      have hstats : (applyOp s (.openOp t sym e a sol sl tp now)).stats =
          s.stats := rfl
      have hlog : loggedPnlSum (applyOp s (.openOp t sym e a sol sl tp now)) =
          loggedPnlSum s := by
        simp [applyOp, open_position, loggedPnlSum, LogEntry.pnlSol]
      have hih := ih (applyOp s (.openOp t sym e a sol sl tp now))
        (by rw [hstats]; exact h)
      rw [hstats, hlog] at hih
      have hcnt : closeOpsCount (PMOp.openOp t sym e a sol sl tp now :: rest) =
          closeOpsCount rest := by
        simp [closeOpsCount, List.filter_cons, PMOp.isClose]
      rw [hcnt]
      exact hih
    | closeOp t ex so r now =>
      have hstep := close_step_bound s t ex so r now h
      have hih := ih (applyOp s (.closeOp t ex so r now)) hstep.1
      refine ⟨hih.1, ?_⟩
      have hcnt : closeOpsCount (PMOp.closeOp t ex so r now :: rest) =
          closeOpsCount rest + 1 := by
        simp [closeOpsCount, List.filter_cons, PMOp.isClose]
      rw [hcnt]
      have happ : applyOp s (PMOp.closeOp t ex so r now) =
          (close_position s t ex so r now).2 := rfl
      rw [← happ] at hstep
      have htri := abs_sub_le
        ((rest.foldl applyOp (applyOp s (.closeOp t ex so r now))).stats.total_pnl_sol -
          loggedPnlSum (rest.foldl applyOp (applyOp s (.closeOp t ex so r now))))
        ((applyOp s (.closeOp t ex so r now)).stats.total_pnl_sol -
          loggedPnlSum (applyOp s (.closeOp t ex so r now)))
        (s.stats.total_pnl_sol - loggedPnlSum s)
      have hb2 := hstep.2
      have hb1 := hih.2
      push_cast
      push_cast at hb1
      linarith

/-- C4 (amended): after any sequence of opens and closes from the empty
state whose close reasons are terminal (not the reserved status "open"),
the incrementally maintained counters satisfy `wins + losses = number of
closed positions`; and unconditionally the incremental `total_pnl_sol`
agrees with the full recompute (the sum of the logged `pnl_sol` values)
up to at most 10⁻⁶ per close — the slack 6-decimal banker's rounding can
introduce when the accumulator and the individual pnl break a decimal
tie toward different parities — rather than exactly. -/
theorem stats_invariant (ops : List PMOp) :
    ((∀ op ∈ ops, op.terminalReason) →
      (runOps ops).stats.wins + (runOps ops).stats.losses =
        closedCount (runOps ops)) ∧
    |(runOps ops).stats.total_pnl_sol - loggedPnlSum (runOps ops)| ≤
      (closeOpsCount ops : ℚ) / 10 ^ 6 := by
  constructor
  · intro hterm
    exact statsInv_run ops PMState.init hterm rfl
  · have h := (pnlBound_run ops PMState.init isMicroSol_zero).2
    simpa [runOps, PMState.init, loggedPnlSum] using h

/-- A small open/close run used as concrete instance of the stats
invariant. -/
def opsSmall : List PMOp :=
  [.openOp "tok" "TOK" 1 1 1 10 50 0,
   .closeOp "tok" 2 2 "took_profit" 1]

theorem stats_invariant_witness :
    (∀ op ∈ opsSmall, op.terminalReason) ∧
    (runOps opsSmall).stats.wins + (runOps opsSmall).stats.losses =
      closedCount (runOps opsSmall) ∧
    |(runOps opsSmall).stats.total_pnl_sol - loggedPnlSum (runOps opsSmall)| ≤
      (closeOpsCount opsSmall : ℚ) / 10 ^ 6 := by
  have hterm : ∀ op ∈ opsSmall, op.terminalReason := by
    intro op hop
    simp only [opsSmall, List.mem_cons, List.not_mem_nil, or_false] at hop
    rcases hop with rfl | rfl
    · trivial
    · simp [PMOp.terminalReason]
  exact ⟨hterm, (stats_invariant opsSmall).1 hterm, (stats_invariant opsSmall).2⟩

/-- The position the tie-run opens for token "a". -/
def posA : Position := ⟨"a", "A", 1, 1, 1, 0, 9/10, 3/2, "open"⟩

/-- `posA` after being closed with reason "took_profit". -/
def posAc : Position := ⟨"a", "A", 1, 1, 1, 0, 9/10, 3/2, "took_profit"⟩

/-- The position the tie-run opens for token "b". -/
def posB : Position := ⟨"b", "B", 1, 1, 1, 2, 9/10, 3/2, "open"⟩

/-- `posB` after being closed with reason "took_profit". -/
def posBc : Position := ⟨"b", "B", 1, 1, 1, 2, 9/10, 3/2, "took_profit"⟩

/-- A run with realized pnls 1/64 = 0.015625 and 1/128 = 0.0078125 SOL.
Both are dyadic, hence exact IEEE doubles, and so are the intermediate
sol amounts 65/64 and 129/128, so the run traces identically in the
program's float semantics.  The second pnl is an exact 6-decimal tie:
the log rounds 7812.5 down to the even 7812, while the accumulator
rounds 23437.5 up to the even 23438, so the incremental total and the
recomputed sum diverge by 10⁻⁶. -/
def opsTie : List PMOp :=
  [.openOp "a" "A" 1 1 1 10 50 0,
   .closeOp "a" 1 (1 + 1/64) "took_profit" 1,
   .openOp "b" "B" 1 1 1 10 50 2,
   .closeOp "b" 1 (1 + 1/128) "took_profit" 3]

/-- Tie-run state after the first open. -/
def tieS1 : PMState := ⟨[posA], [.buy "a" "A" 1 1 0], ⟨0, 0, 0⟩⟩

/-- Tie-run trade log after the first close (pnl 1/64 = 0.015625 rounds
to itself at 6 decimals). -/
def tieLog2 : List LogEntry :=
  [.buy "a" "A" 1 1 0,
   .sell "a" "A" 1 1 1 (65/64) (1/64) 0 "took_profit" 1]

/-- Tie-run state after the first close. -/
def tieS2 : PMState := ⟨[posAc], tieLog2, ⟨1/64, 1, 0⟩⟩

/-- Tie-run state after the second open. -/
def tieS3 : PMState :=
  ⟨[posAc, posB], tieLog2 ++ [.buy "b" "B" 1 1 2], ⟨1/64, 1, 0⟩⟩

/-- Tie-run final state: the incremental total is 0.023438 but the two
logged pnls are 0.015625 and 0.007812. -/
def tieS4 : PMState :=
  ⟨[posAc, posBc],
    tieLog2 ++ [.buy "b" "B" 1 1 2,
      .sell "b" "B" 1 1 1 (129/128) (7812/1000000) 0 "took_profit" 3],
    ⟨23438/1000000, 2, 0⟩⟩

theorem runOps_opsTie : runOps opsTie = tieS4 := by
  have e1 : applyOp PMState.init (.openOp "a" "A" 1 1 1 10 50 0) = tieS1 := by
    norm_num [applyOp, open_position, openedPosition, PMState.init,
      tieS1, posA]
  have c1 : closeFirst "a" "took_profit" tieS1.positions =
      some (posAc, [posAc]) := by
    norm_num [closeFirst, tieS1, posA, posAc]
  have e2 : applyOp tieS1
      (.closeOp "a" 1 (1 + 1/64) "took_profit" 1) = tieS2 := by
    show (close_position tieS1 "a" 1 (1 + 1/64) "took_profit" 1).2 = tieS2
    rw [close_position_state tieS1 "a" 1 (1 + 1/64) "took_profit" 1
      posAc [posAc] c1]
    norm_num [tieS1, tieS2, tieLog2, posAc, pyRound, pyRoundInt]
  have e3 : applyOp tieS2 (.openOp "b" "B" 1 1 1 10 50 2) = tieS3 := by
    norm_num [applyOp, open_position, openedPosition, tieS2, tieS3, posB]
  have c2 : closeFirst "b" "took_profit" tieS3.positions =
      some (posBc, [posAc, posBc]) := by
    norm_num [closeFirst, tieS3, posAc, posB, posBc]
    intro h
    simp at h
  have e4 : applyOp tieS3
      (.closeOp "b" 1 (1 + 1/128) "took_profit" 3) = tieS4 := by
    show (close_position tieS3 "b" 1 (1 + 1/128) "took_profit" 3).2 = tieS4
    rw [close_position_state tieS3 "b" 1 (1 + 1/128) "took_profit" 3
      posBc [posAc, posBc] c2]
    norm_num [tieS3, tieS4, tieLog2, posBc, pyRound, pyRoundInt]
  show List.foldl applyOp PMState.init opsTie = tieS4
  rw [opsTie, List.foldl_cons, e1, List.foldl_cons, e2, List.foldl_cons, e3,
    List.foldl_cons, e4, List.foldl_nil]

/-- A run that closes a position with the caller-supplied reason string
"open": the status stays "open" while a win is still counted. -/
def opsReopen : List PMOp :=
  [.openOp "a" "A" 1 1 1 10 50 0,
   .closeOp "a" 1 2 "open" 1]

/-- Final state of `opsReopen`: one win counted, yet no position has a
non-"open" status. -/
def reopenS2 : PMState :=
  ⟨[posA], [.buy "a" "A" 1 1 0, .sell "a" "A" 1 1 1 2 1 0 "open" 1],
    ⟨1, 1, 0⟩⟩

theorem runOps_opsReopen : runOps opsReopen = reopenS2 := by
  have e1 : applyOp PMState.init (.openOp "a" "A" 1 1 1 10 50 0) =
      (⟨[posA], [.buy "a" "A" 1 1 0], ⟨0, 0, 0⟩⟩ : PMState) := by
    norm_num [applyOp, open_position, openedPosition, PMState.init, posA]
  have c1 : closeFirst "a" "open"
      (⟨[posA], [.buy "a" "A" 1 1 0], ⟨0, 0, 0⟩⟩ : PMState).positions =
      some (posA, [posA]) := by
    norm_num [closeFirst, posA]
  have e2 : applyOp (⟨[posA], [.buy "a" "A" 1 1 0], ⟨0, 0, 0⟩⟩ : PMState)
      (.closeOp "a" 1 2 "open" 1) = reopenS2 := by
    show (close_position (⟨[posA], [.buy "a" "A" 1 1 0], ⟨0, 0, 0⟩⟩ : PMState)
      "a" 1 2 "open" 1).2 = reopenS2
    rw [close_position_state _ "a" 1 2 "open" 1 posA [posA] c1]
    norm_num [reopenS2, posA, pyRound, pyRoundInt]
  show List.foldl applyOp PMState.init opsReopen = reopenS2
  rw [opsReopen, List.foldl_cons, e1, List.foldl_cons, e2, List.foldl_nil]

/-- C4 counterexample: (1) with realized pnls 1/64 and 1/128 SOL (both
exact binary doubles, and 1/128·10⁶ an exact decimal tie) the
incrementally maintained `total_pnl_sol` is 0.023438 but the sum of the
logged pnls is 0.015625 + 0.007812 = 0.023437 — banker's rounding breaks
the accumulator tie 23437.5 upward and the log tie 7812.5 downward; (2)
closing with reason "open" increments the win counter while the
closed-position count stays 0. -/
theorem stats_invariant_counterexample :
    (runOps opsTie).stats.total_pnl_sol ≠ loggedPnlSum (runOps opsTie) ∧
    (runOps opsReopen).stats.wins + (runOps opsReopen).stats.losses ≠
      closedCount (runOps opsReopen) := by
  rw [runOps_opsTie, runOps_opsReopen]
  constructor
  · norm_num [tieS4, tieLog2, loggedPnlSum, LogEntry.pnlSol]
  · norm_num [reopenS2, closedCount, posA]

/-- A memory.py lesson record. -/
structure Lesson where
  lesson : String
  source : String
  time : ℚ
  deriving DecidableEq

/-- A memory.py avoid-list record. -/
structure AvoidEntry where
  address : String
  reason : String
  time : ℚ
  deriving DecidableEq

/-- A memory.py user-guidance note. -/
structure UserNote where
  note : String
  time : ℚ
  deriving DecidableEq

/-- A memory.py trade-review record (numeric fields stored rounded as in
`add_trade_review`). -/
structure TradeReview where
  token : String
  symbol : String
  side : String
  pnl_sol : ℚ
  pnl_pct : ℚ
  trend_score : ℤ
  buy_ratio : ℚ
  liquidity_usd : ℚ
  hold_time_min : ℚ
  reason : String
  time : ℚ
  deriving DecidableEq

/-- In-memory state of a `StrategyMemory` (`_data`). -/
structure SMState where
  lessons : List Lesson
  avoid_tokens : List AvoidEntry
  prefer_patterns : List String
  session_notes : List UserNote
  trade_reviews : List TradeReview
  deriving DecidableEq

/-- The state of a freshly constructed `StrategyMemory` with no store. -/
def SMState.init : SMState := ⟨[], [], [], [], []⟩

/-- The bounded-retention trim of memory.py `_save`: keep the last 200
entries when a list exceeds 200. -/
def trim200 {α : Type} (l : List α) : List α :=
  if 200 < l.length then l.drop (l.length - 200) else l

/-- memory.py `_save`: trims lessons, trade reviews and session notes to
the most recent 200 entries (in memory as well, since `_save` reassigns
the lists).  The JSON write itself is elided. -/
def saveTrim (s : SMState) : SMState :=
  { s with
      lessons := trim200 s.lessons
      trade_reviews := trim200 s.trade_reviews
      session_notes := trim200 s.session_notes }

/-- memory.py `add_lesson`. -/
def add_lesson (s : SMState) (lesson source : String) (now : ℚ) : SMState :=
  saveTrim { s with lessons := s.lessons ++ [⟨lesson, source, now⟩] }

/-- memory.py `add_avoid`: no-op when the address is already present. -/
def add_avoid (s : SMState) (address reason : String) (now : ℚ) : SMState :=
  if address ∈ s.avoid_tokens.map AvoidEntry.address then s
  else saveTrim
    { s with avoid_tokens := s.avoid_tokens ++ [⟨address, reason, now⟩] }

/-- memory.py `should_avoid`: reason of the first matching entry. -/
def should_avoid (s : SMState) (address : String) : Option String :=
  (s.avoid_tokens.find? (fun e => e.address == address)).map AvoidEntry.reason

/-- memory.py `add_pattern`: de-duplicated append. -/
def add_pattern (s : SMState) (pattern : String) : SMState :=
  if pattern ∈ s.prefer_patterns then s
  else saveTrim { s with prefer_patterns := s.prefer_patterns ++ [pattern] }

/-- Python `f"{x:.0f}"` of a float: nearest integer, ties to even.
Thousands separators of the source's `{:,.0f}` are not reproduced. -/
def fmt0 (x : ℚ) : String := toString (pyRoundInt x)

/-- The auto-loss lesson text of `_auto_learn`. -/
def lossLessonText (symbol : String) (score : ℤ) (buy_ratio liq : ℚ)
    (reason : String) : String :=
  "Big loss on " ++ symbol ++ ": score=" ++ toString score ++
    ", buy_ratio=" ++ fmt0 buy_ratio ++ "%, liq=$" ++ fmt0 liq ++
    ". Reason: " ++ reason ++ ". Be more cautious with similar setups."

/-- The avoid-list reason of `_auto_learn`, citing the loss percentage. -/
def lossAvoidReason (pnl_pct : ℚ) (reason : String) : String :=
  "Lost " ++ fmt0 pnl_pct ++ "% — " ++ reason

/-- The auto-win lesson text of `_auto_learn`. -/
def winLessonText (symbol : String) (score : ℤ) (buy_ratio liq : ℚ) :
    String :=
  "Big win on " ++ symbol ++ ": score=" ++ toString score ++
    ", buy_ratio=" ++ fmt0 buy_ratio ++ "%, liq=$" ++ fmt0 liq ++
    ". Look for similar setups."

/-- The winning-pattern string of `_auto_learn`. -/
def winPatternText (score : ℤ) (buy_ratio liq : ℚ) : String :=
  "score>=" ++ toString score ++ ",buy_ratio>=" ++ fmt0 buy_ratio ++
    "%,liq>=$" ++ fmt0 liq

/-- memory.py `_auto_learn`: loss branch at `pnl_pct ≤ -30`, win branch
at `pnl_pct ≥ 50`, otherwise nothing. -/
def _auto_learn (s : SMState) (pnl_pct : ℚ) (score : ℤ)
    (buy_ratio liq : ℚ) (symbol addr reason : String) (now : ℚ) : SMState :=
  if pnl_pct ≤ -30 then
    add_avoid
      (add_lesson s (lossLessonText symbol score buy_ratio liq reason)
        "auto_loss" now)
      addr (lossAvoidReason pnl_pct reason) now
  else if pnl_pct ≥ 50 then
    add_pattern
      (add_lesson s (winLessonText symbol score buy_ratio liq)
        "auto_win" now)
      (winPatternText score buy_ratio liq)
  else s

/-- The review record `add_trade_review` appends (fields rounded as in
the source). -/
def reviewOf (token symbol side : String) (pnl_sol pnl_pct : ℚ)
    (trend_score : ℤ) (buy_ratio liquidity_usd hold_time_min : ℚ)
    (reason : String) (now : ℚ) : TradeReview :=
  ⟨token, symbol, side, pyRound pnl_sol 6, pyRound pnl_pct 2, trend_score,
    pyRound buy_ratio 1, pyRound liquidity_usd 0, pyRound hold_time_min 1,
    reason, now⟩

/-- memory.py `add_trade_review`: append the review, persist, then
auto-learn from the (unrounded) outcome. -/
def add_trade_review (s : SMState) (token symbol side : String)
    (pnl_sol pnl_pct : ℚ) (trend_score : ℤ)
    (buy_ratio liquidity_usd hold_time_min : ℚ)
    (reason : String) (now : ℚ) : SMState :=
  _auto_learn
    (saveTrim { s with trade_reviews := s.trade_reviews ++
      [reviewOf token symbol side pnl_sol pnl_pct trend_score buy_ratio
        liquidity_usd hold_time_min reason now] })
    pnl_pct trend_score buy_ratio liquidity_usd symbol token reason now

theorem trim200_of_le {α : Type} (l : List α) (h : l.length ≤ 200) :
    trim200 l = l := by
  unfold trim200
  rw [if_neg (by omega)]

theorem saveTrim_of_le (s : SMState) (h1 : s.lessons.length ≤ 200)
    (h2 : s.trade_reviews.length ≤ 200)
    (h3 : s.session_notes.length ≤ 200) : saveTrim s = s := by
  unfold saveTrim
  rw [trim200_of_le _ h1, trim200_of_le _ h2, trim200_of_le _ h3]

theorem add_avoid_mem (s : SMState) (addr reason : String) (now : ℚ)
    (h : addr ∈ s.avoid_tokens.map AvoidEntry.address) :
    add_avoid s addr reason now = s := by
  unfold add_avoid
  rw [if_pos h]

theorem add_avoid_not_mem (s : SMState) (addr reason : String) (now : ℚ)
    (h : addr ∉ s.avoid_tokens.map AvoidEntry.address) :
    add_avoid s addr reason now =
      saveTrim
        { s with avoid_tokens := s.avoid_tokens ++ [⟨addr, reason, now⟩] } := by
  unfold add_avoid
  rw [if_neg h]

theorem add_avoid_avoid_tokens (s : SMState) (addr reason : String) (now : ℚ)
    (h : addr ∉ s.avoid_tokens.map AvoidEntry.address) :
    (add_avoid s addr reason now).avoid_tokens =
      s.avoid_tokens ++ [⟨addr, reason, now⟩] := by
  rw [add_avoid_not_mem s addr reason now h]
  rfl

/-- C8: from a state in which the address is not yet on the avoid list,
two `add_avoid` calls for the same address (with any two reasons) leave
the memory exactly as after the first call — a single entry for that
address, `should_avoid` returning the first reason; the second call is a
no-op. -/
theorem add_avoid_first_wins (s : SMState) (addr r1 r2 : String)
    (now1 now2 : ℚ) (h : addr ∉ s.avoid_tokens.map AvoidEntry.address) :
    add_avoid (add_avoid s addr r1 now1) addr r2 now2 =
      add_avoid s addr r1 now1 ∧
    ((add_avoid (add_avoid s addr r1 now1) addr r2 now2).avoid_tokens.filter
      (fun e => e.address == addr)).length = 1 ∧
    should_avoid (add_avoid (add_avoid s addr r1 now1) addr r2 now2) addr =
      some r1 := by
  have h1 : (add_avoid s addr r1 now1).avoid_tokens =
      s.avoid_tokens ++ [⟨addr, r1, now1⟩] :=
    add_avoid_avoid_tokens s addr r1 now1 h
  have hmem : addr ∈ (add_avoid s addr r1 now1).avoid_tokens.map
      AvoidEntry.address := by
    rw [h1]
    simp
  have hstep2 : add_avoid (add_avoid s addr r1 now1) addr r2 now2 =
      add_avoid s addr r1 now1 :=
    add_avoid_mem _ addr r2 now2 hmem
  have hnone : ∀ e ∈ s.avoid_tokens, ¬(e.address == addr) = true := by
    intro e he hc
    exact h (List.mem_map.mpr ⟨e, he, by simpa using hc⟩)
  refine ⟨hstep2, ?_, ?_⟩
  · rw [hstep2, h1, List.filter_append, List.filter_eq_nil.mpr hnone]
    simp
  · rw [hstep2]
    unfold should_avoid
    rw [h1, List.find?_append, List.find?_eq_none.mpr hnone]
    simp

theorem add_avoid_first_wins_witness :
    "x" ∉ SMState.init.avoid_tokens.map AvoidEntry.address ∧
      should_avoid (add_avoid (add_avoid SMState.init "x" "r1" 0) "x" "r2" 1)
        "x" = some "r1" :=
  ⟨by simp [SMState.init],
    (add_avoid_first_wins SMState.init "x" "r1" "r2" 0 1
      (by simp [SMState.init])).2.2⟩

/-- C5 (amended): `add_trade_review` with `pnl_pct ≤ -30` appends the
review, one auto_loss lesson and one avoid entry citing the loss
percentage; with `pnl_pct ≥ 50` it appends the review, one auto_win
lesson and one winning pattern; strictly between the thresholds it
appends only the review — in each case provided the touched lists are
below the 200-entry retention bound and, for the loss/win actions, the
token is not already on the avoid list resp. the pattern not already
registered (otherwise `add_avoid`/`add_pattern` are no-ops). -/
theorem auto_learn_thresholds :
    (∀ (s : SMState) (token symbol side : String) (pnl_sol pnl_pct : ℚ)
        (score : ℤ) (buy_ratio liq hold : ℚ) (reason : String) (now : ℚ),
      pnl_pct ≤ -30 →
      token ∉ s.avoid_tokens.map AvoidEntry.address →
      s.lessons.length < 200 → s.trade_reviews.length < 200 →
      s.session_notes.length ≤ 200 →
      add_trade_review s token symbol side pnl_sol pnl_pct score buy_ratio
          liq hold reason now =
        ⟨s.lessons ++ [⟨lossLessonText symbol score buy_ratio liq reason,
            "auto_loss", now⟩],
          s.avoid_tokens ++ [⟨token, lossAvoidReason pnl_pct reason, now⟩],
          s.prefer_patterns,
          s.session_notes,
          s.trade_reviews ++ [reviewOf token symbol side pnl_sol pnl_pct
            score buy_ratio liq hold reason now]⟩) ∧
    (∀ (s : SMState) (token symbol side : String) (pnl_sol pnl_pct : ℚ)
        (score : ℤ) (buy_ratio liq hold : ℚ) (reason : String) (now : ℚ),
      50 ≤ pnl_pct →
      winPatternText score buy_ratio liq ∉ s.prefer_patterns →
      s.lessons.length < 200 → s.trade_reviews.length < 200 →
      s.session_notes.length ≤ 200 →
      add_trade_review s token symbol side pnl_sol pnl_pct score buy_ratio
          liq hold reason now =
        ⟨s.lessons ++ [⟨winLessonText symbol score buy_ratio liq,
            "auto_win", now⟩],
          s.avoid_tokens,
          s.prefer_patterns ++ [winPatternText score buy_ratio liq],
          s.session_notes,
          s.trade_reviews ++ [reviewOf token symbol side pnl_sol pnl_pct
            score buy_ratio liq hold reason now]⟩) ∧
    (∀ (s : SMState) (token symbol side : String) (pnl_sol pnl_pct : ℚ)
        (score : ℤ) (buy_ratio liq hold : ℚ) (reason : String) (now : ℚ),
      -30 < pnl_pct → pnl_pct < 50 →
      s.lessons.length ≤ 200 → s.trade_reviews.length < 200 →
      s.session_notes.length ≤ 200 →
      add_trade_review s token symbol side pnl_sol pnl_pct score buy_ratio
          liq hold reason now =
        ⟨s.lessons, s.avoid_tokens, s.prefer_patterns, s.session_notes,
          s.trade_reviews ++ [reviewOf token symbol side pnl_sol pnl_pct
            score buy_ratio liq hold reason now]⟩) := by
  refine ⟨?_, ?_, ?_⟩
  · intro s token symbol side pnl_sol pnl_pct score buy_ratio liq hold
      reason now hpnl havoid hle hrv hno
    have h1 : ¬ 200 < s.lessons.length := by omega
    have h2 : ¬ 200 < s.trade_reviews.length + 1 := by omega
    have h3 : ¬ 200 < s.session_notes.length := by omega
    have h4 : ¬ 200 < s.lessons.length + 1 := by omega
    simp [add_trade_review, _auto_learn, add_lesson, add_avoid, saveTrim,
      trim200, hpnl, havoid, h1, h2, h3, h4]
  · intro s token symbol side pnl_sol pnl_pct score buy_ratio liq hold
      reason now hpnl hpat hle hrv hno
    have h1 : ¬ 200 < s.lessons.length := by omega
    have h2 : ¬ 200 < s.trade_reviews.length + 1 := by omega
    have h3 : ¬ 200 < s.session_notes.length := by omega
    have h4 : ¬ 200 < s.lessons.length + 1 := by omega
    have h5 : ¬ pnl_pct ≤ -30 := by linarith
    simp [add_trade_review, _auto_learn, add_lesson, add_pattern, saveTrim,
      trim200, hpnl, hpat, h1, h2, h3, h4, h5]
  · intro s token symbol side pnl_sol pnl_pct score buy_ratio liq hold
      reason now hlo hhi hle hrv hno
    have h1 : ¬ 200 < s.lessons.length := by omega
    have h2 : ¬ 200 < s.trade_reviews.length + 1 := by omega
    have h3 : ¬ 200 < s.session_notes.length := by omega
    have h5 : ¬ pnl_pct ≤ -30 := by linarith
    have h6 : ¬ 50 ≤ pnl_pct := by linarith
    simp [add_trade_review, _auto_learn, saveTrim, trim200,
      h1, h2, h3, h5, h6]

theorem auto_learn_thresholds_witness :
    ((-35:ℚ) ≤ -30 ∧
      add_trade_review SMState.init "t" "S" "sell" (-1) (-35) 40 (1/2)
          10000 5 "stopped_out" 1 =
        ⟨[⟨lossLessonText "S" 40 (1/2) 10000 "stopped_out", "auto_loss", 1⟩],
          [⟨"t", lossAvoidReason (-35) "stopped_out", 1⟩], [], [],
          [reviewOf "t" "S" "sell" (-1) (-35) 40 (1/2) 10000 5
            "stopped_out" 1]⟩) ∧
    ((50:ℚ) ≤ 60 ∧
      add_trade_review SMState.init "t" "S" "sell" 1 60 80 (7/10) 150000 5
          "took_profit" 1 =
        ⟨[⟨winLessonText "S" 80 (7/10) 150000, "auto_win", 1⟩], [],
          [winPatternText 80 (7/10) 150000], [],
          [reviewOf "t" "S" "sell" 1 60 80 (7/10) 150000 5
            "took_profit" 1]⟩) ∧
    ((-30:ℚ) < 10 ∧ (10:ℚ) < 50 ∧
      add_trade_review SMState.init "t" "S" "sell" 1 10 40 (1/2) 10000 5
          "manual_sell" 1 =
        ⟨[], [], [], [],
          [reviewOf "t" "S" "sell" 1 10 40 (1/2) 10000 5
            "manual_sell" 1]⟩) := by
  refine ⟨⟨by norm_num, ?_⟩, ⟨by norm_num, ?_⟩, ⟨by norm_num, by norm_num, ?_⟩⟩
  · have h := auto_learn_thresholds.1 SMState.init "t" "S" "sell" (-1) (-35)
      40 (1/2) 10000 5 "stopped_out" 1 (by norm_num) (by simp [SMState.init])
      (by simp [SMState.init]) (by simp [SMState.init]) (by simp [SMState.init])
    simpa [SMState.init] using h
  · have h := auto_learn_thresholds.2.1 SMState.init "t" "S" "sell" 1 60
      80 (7/10) 150000 5 "took_profit" 1 (by norm_num) (by simp [SMState.init])
      (by simp [SMState.init]) (by simp [SMState.init]) (by simp [SMState.init])
    simpa [SMState.init] using h
  · have h := auto_learn_thresholds.2.2 SMState.init "t" "S" "sell" 1 10
      40 (1/2) 10000 5 "manual_sell" 1 (by norm_num) (by norm_num)
      (by simp [SMState.init]) (by simp [SMState.init]) (by simp [SMState.init])
    simpa [SMState.init] using h

/-- A memory state whose avoid list already contains token "tokA". -/
def dupAvoidState : SMState := ⟨[], [⟨"tokA", "prior", 0⟩], [], [], []⟩

/-- A memory state already containing the winning pattern that a
score-80 / ratio-0.7 / liquidity-150000 win would register. -/
def patternState : SMState :=
  ⟨[], [], [winPatternText 80 (7/10) 150000], [], []⟩

/-- A memory state whose lesson list is at the 200-entry retention
bound. -/
def cap200State : SMState :=
  ⟨List.replicate 200 ⟨"x", "u", 0⟩, [], [], [], []⟩

set_option maxRecDepth 4000 in
/-- C5 counterexample: (1) a −35% review for a token already on the
avoid list adds no avoid entry (the list is unchanged, still one entry);
(2) a +60% review whose pattern string is already registered adds no
pattern; (3) at the 200-lesson retention bound a −35% review leaves the
lesson count at 200 instead of growing it to 201. -/
theorem auto_learn_counterexample :
    (add_trade_review dupAvoidState "tokA" "SYM" "sell" (-1) (-35) 40 (1/2)
        10000 5 "stopped_out" 1).avoid_tokens = dupAvoidState.avoid_tokens ∧
    dupAvoidState.avoid_tokens.length = 1 ∧
    (add_trade_review patternState "t" "S" "sell" 1 60 80 (7/10) 150000 5
        "took_profit" 1).prefer_patterns = patternState.prefer_patterns ∧
    (add_trade_review cap200State "t" "S" "sell" (-1) (-35) 40 (1/2) 10000 5
        "r" 1).lessons.length = 200 ∧
    cap200State.lessons.length = 200 := by
  refine ⟨?_, rfl, ?_, ?_, by simp [cap200State]⟩
  · norm_num [add_trade_review, _auto_learn, add_lesson, add_avoid,
      saveTrim, trim200, dupAvoidState]
  · norm_num [add_trade_review, _auto_learn, add_lesson, add_pattern,
      saveTrim, trim200, patternState]
  · norm_num [add_trade_review, _auto_learn, add_lesson, add_avoid,
      saveTrim, trim200, cap200State, List.length_append]

/-- The risk-limit configuration consumed by safety.py
(`SolanaRiskLimits`; its defining module is config plumbing outside the
trading core, so only the fields the checks read are modelled). -/
structure SolanaRiskLimits where
  min_liquidity_usd : ℚ
  min_volume_24h_usd : ℚ
  max_position_sol : ℚ
  max_portfolio_sol : ℚ
  cooldown_seconds : ℚ
  min_holder_count : ℕ
  max_top_holder_pct : ℚ
  deriving DecidableEq

/-- The holder statistics returned by `service.get_token_holders`. -/
structure HolderStats where
  holder_count : ℕ
  top_holder_pct : ℚ
  deriving DecidableEq

/-- One blocking reason collected by `check_token_safety`; each
constructor corresponds to one `reasons.append(...)` site and carries
the values interpolated into the source's message string. -/
inductive Reason where
  | lowLiquidity (liq minLiq : ℚ)
  | lowVolume (vol minVol : ℚ)
  | positionTooLarge (amount maxPos : ℚ)
  | portfolioExceeded (wouldBe maxPort : ℚ)
  | cooldownActive (remaining : ℤ) (symbol : String)
  | duplicatePosition (symbol : String)
  | tooFewHolders (count minCount : ℕ)
  | topHolderTooHigh (pct maxPct : ℚ)
  | holderCheckFailed (msg : String)
  deriving DecidableEq

/-- safety.py `SafetyResult`. -/
structure SafetyResult where
  safe : Bool
  reasons : List Reason
  score : ℤ
  deriving DecidableEq

/-- Check 1 of `check_token_safety`: liquidity below minimum. -/
def liquidityCheck (token : TokenInfo) (risk : SolanaRiskLimits) :
    List Reason :=
  if token.liquidity_usd < risk.min_liquidity_usd then
    [.lowLiquidity token.liquidity_usd risk.min_liquidity_usd]
  else []

/-- Check 2: 24h volume below minimum. -/
def volumeCheck (token : TokenInfo) (risk : SolanaRiskLimits) :
    List Reason :=
  if token.volume_24h < risk.min_volume_24h_usd then
    [.lowVolume token.volume_24h risk.min_volume_24h_usd]
  else []

/-- Check 3: requested position size above the per-trade maximum. -/
def sizeCheck (amount_sol : ℚ) (risk : SolanaRiskLimits) : List Reason :=
  if amount_sol > risk.max_position_sol then
    [.positionTooLarge amount_sol risk.max_position_sol]
  else []

/-- Check 4: open exposure plus the request above the portfolio cap. -/
def exposureCheck (positions : PMState) (amount_sol : ℚ)
    (risk : SolanaRiskLimits) : List Reason :=
  if get_total_sol_invested positions + amount_sol > risk.max_portfolio_sol
  then
    [.portfolioExceeded (get_total_sol_invested positions + amount_sol)
      risk.max_portfolio_sol]
  else []

/-- Check 5: a trade on this token within the cooldown window
(a last-trade timestamp of 0.0 is falsy in the source and is skipped). -/
def cooldownCheck (positions : PMState) (token : TokenInfo)
    (risk : SolanaRiskLimits) (now : ℚ) : List Reason :=
  match get_last_trade_time positions token.address with
  | none => []
  | some t =>
    if t ≠ 0 ∧ now - t < risk.cooldown_seconds then
      [.cooldownActive (truncQ (risk.cooldown_seconds - (now - t)))
        token.symbol]
    else []

/-- Check 6: an open position already exists for this token. -/
def duplicateCheck (positions : PMState) (token : TokenInfo) :
    List Reason :=
  if get_positions_for_token positions token.address ≠ [] then
    [.duplicatePosition token.symbol]
  else []

/-- Check 7: holder distribution via the RPC collaborator; an exception
becomes a blocking reason (fail-closed). -/
def holderCheck (res : Except String HolderStats)
    (risk : SolanaRiskLimits) : List Reason :=
  match res with
  | .ok h =>
    (if h.holder_count < risk.min_holder_count then
      [.tooFewHolders h.holder_count risk.min_holder_count]
    else []) ++
    (if h.top_holder_pct > risk.max_top_holder_pct then
      [.topHolderTooHigh h.top_holder_pct risk.max_top_holder_pct]
    else [])
  | .error e => [.holderCheckFailed e]

/-- safety.py `check_token_safety`: runs all seven checks in source
order, collecting every applicable reason; `safe` iff no reason; the
trend score is computed unconditionally.  The awaited
`service.get_token_holders` call is passed as its outcome `res`
(`Except.error` when it raised). -/
def check_token_safety (token : TokenInfo) (risk : SolanaRiskLimits)
    (positions : PMState) (res : Except String HolderStats)
    (amount_sol now : ℚ) : SafetyResult :=
  { safe :=
      (liquidityCheck token risk ++ volumeCheck token risk ++
        sizeCheck amount_sol risk ++ exposureCheck positions amount_sol risk ++
        cooldownCheck positions token risk now ++
        duplicateCheck positions token ++ holderCheck res risk).isEmpty
    reasons :=
      liquidityCheck token risk ++ volumeCheck token risk ++
        sizeCheck amount_sol risk ++ exposureCheck positions amount_sol risk ++
        cooldownCheck positions token risk now ++
        duplicateCheck positions token ++ holderCheck res risk
    score := _compute_trend_score token }

/-- A $50k-liquidity example token; all its other metrics pass the
example limits. -/
def exampleToken : TokenInfo :=
  { address := "ex", symbol := "EX", name := "Example"
    price_usd := 1, volume_24h := 100000, liquidity_usd := 50000
    price_change_5m := 0, price_change_1h := 0, price_change_24h := 0
    buy_count_5m := 0, sell_count_5m := 0 }

/-- Example limits with a $100k liquidity minimum; every other limit is
satisfied by `exampleToken` against an empty manager. -/
def exampleRisk : SolanaRiskLimits :=
  { min_liquidity_usd := 100000, min_volume_24h_usd := 0
    max_position_sol := 10, max_portfolio_sol := 10
    cooldown_seconds := 60, min_holder_count := 0
    max_top_holder_pct := 100 }

/-- C2: `check_token_safety` accepts exactly when its collected reasons
list is empty; the reasons list is the concatenation of the seven
independent checks (so no failing check suppresses another's reason); a
holder-stats exception always contributes a blocking reason and forces
rejection (fail-closed); the reported score is the trend score of the
token alone, whatever the decision and holder outcome; and the $50k
liquidity example against a $100k minimum is rejected with exactly the
one liquidity reason plus its independently computed score. -/
theorem check_token_safety_spec :
    (∀ (token : TokenInfo) (risk : SolanaRiskLimits) (positions : PMState)
        (res : Except String HolderStats) (amount_sol now : ℚ),
      ((check_token_safety token risk positions res amount_sol now).safe =
          true ↔
        (check_token_safety token risk positions res amount_sol now).reasons
          = [])) ∧
    (∀ (token : TokenInfo) (risk : SolanaRiskLimits) (positions : PMState)
        (res : Except String HolderStats) (amount_sol now : ℚ),
      (check_token_safety token risk positions res amount_sol now).reasons =
        liquidityCheck token risk ++ volumeCheck token risk ++
          sizeCheck amount_sol risk ++
          exposureCheck positions amount_sol risk ++
          cooldownCheck positions token risk now ++
          duplicateCheck positions token ++ holderCheck res risk) ∧
    (∀ (token : TokenInfo) (risk : SolanaRiskLimits) (positions : PMState)
        (e : String) (amount_sol now : ℚ),
      Reason.holderCheckFailed e ∈
        (check_token_safety token risk positions (.error e) amount_sol
          now).reasons ∧
      (check_token_safety token risk positions (.error e) amount_sol
        now).safe = false) ∧
    (∀ (token : TokenInfo) (risk : SolanaRiskLimits) (positions : PMState)
        (res : Except String HolderStats) (amount_sol now : ℚ),
      (check_token_safety token risk positions res amount_sol now).score =
        _compute_trend_score token) ∧
    (check_token_safety exampleToken exampleRisk PMState.init
        (.ok ⟨500, 5⟩) 1 1000 =
      ⟨false, [.lowLiquidity 50000 100000], 50⟩) := by
  refine ⟨?_, fun _ _ _ _ _ _ => rfl, ?_, fun _ _ _ _ _ _ => rfl, ?_⟩
  · intro token risk positions res amount_sol now
    exact List.isEmpty_iff
  · intro token risk positions e amount_sol now
    constructor
    · simp [check_token_safety, holderCheck]
    · simp [check_token_safety, holderCheck]
  · norm_num [check_token_safety, liquidityCheck, volumeCheck, sizeCheck,
      exposureCheck, cooldownCheck, duplicateCheck, holderCheck,
      get_total_sol_invested, get_open_positions, get_last_trade_time,
      get_positions_for_token, PMState.init, exampleToken, exampleRisk,
      _compute_trend_score, buyPressureStep, change5mStep, change1hStep,
      liquidityStep, velocityStep]

end Trpnano
